import Mathlib

/-!
Shallow embedding of the caffeine half-life widget (`src/src/App.jsx`,
`src/unnamed/part_000`).  The reusable core consists of:

* the intake-store mutation helpers `addIntake`, `removeIntake`, `updateIntake`;
* the validator `validateIntakes`;
* the decay engine `chartData` (a `useMemo` body in the source).

JavaScript numbers that may be `NaN` (as produced by `Number(value)` on
non-numeric input) are modelled by `JsNum`; validated numeric data is
modelled over `ℚ`, with the real-valued exponential `Math.pow(0.5, x)`
modelled by `Real.rpow` on `ℝ`.  Fallible code paths (JavaScript
`TypeError` on reading a property of `undefined`) are modelled by
`Option`, `none` standing for the thrown exception.
-/

/-- `const CAFFEINE_HALF_LIFE = 5; // hours` -/
def CAFFEINE_HALF_LIFE : ℚ := 5

/-- `const TOTAL_DURATION = 24; // hours` -/
def TOTAL_DURATION : ℕ := 24

/-- A JavaScript number that is either an ordinary (rational) number or the
`NaN` sentinel. -/
inductive JsNum where
  | nan : JsNum
  | num : ℚ → JsNum
deriving DecidableEq

/-- JavaScript `Number(rawValue)`: a string parsing as the number `q` is
modelled by `some q`, a non-numeric string by `none`, which `Number`
coerces to `NaN`. -/
def jsNumber : Option ℚ → JsNum
  | some q => JsNum.num q
  | none => JsNum.nan

/-- JavaScript `<` : every comparison involving `NaN` is `false`. -/
def JsNum.ltB : JsNum → JsNum → Bool
  | JsNum.num a, JsNum.num b => decide (a < b)
  | _, _ => false

/-- JavaScript `<=` : every comparison involving `NaN` is `false`. -/
def JsNum.leB : JsNum → JsNum → Bool
  | JsNum.num a, JsNum.num b => decide (a ≤ b)
  | _, _ => false

/-- JavaScript `>` : every comparison involving `NaN` is `false`. -/
def JsNum.gtB : JsNum → JsNum → Bool
  | JsNum.num a, JsNum.num b => decide (b < a)
  | _, _ => false

/-- JavaScript `>=` : every comparison involving `NaN` is `false`. -/
def JsNum.geB : JsNum → JsNum → Bool
  | JsNum.num a, JsNum.num b => decide (b ≤ a)
  | _, _ => false

/-- JavaScript truncation toward zero, used by the `%` operator. -/
def ratTrunc (q : ℚ) : ℤ :=
  if 0 ≤ q then ⌊q⌋ else ⌈q⌉

/-- JavaScript remainder `a % b` on ordinary numbers: `a - b * trunc (a / b)`
(the result takes the sign of the dividend). -/
def jsRemQ (a b : ℚ) : ℚ :=
  a - b * (ratTrunc (a / b) : ℚ)

/-- JavaScript `x + c` where `x` may be `NaN` (`NaN` propagates). -/
def JsNum.addQ : JsNum → ℚ → JsNum
  | JsNum.nan, _ => JsNum.nan
  | JsNum.num q, c => JsNum.num (q + c)

/-- JavaScript `x % b` where `x` may be `NaN` (`NaN` propagates). -/
def JsNum.remQ : JsNum → ℚ → JsNum
  | JsNum.nan, _ => JsNum.nan
  | JsNum.num q, b => JsNum.num (jsRemQ q b)

/-- An intake-store entry `{ time, amount }` as the UI holds it: either
field may be `NaN` after a failed parse. -/
structure Intake where
  time : JsNum
  amount : JsNum
deriving DecidableEq

/-- The two validation failures of §7: `OutOfRangeTime` is the source's
`'Time must be between 0 and 23.99 hours'`, `OutOfRangeAmount` is
`'Caffeine amount must be between 1 and 1000 mg'`. -/
inductive ValidationError where
  | OutOfRangeTime : ValidationError
  | OutOfRangeAmount : ValidationError
deriving DecidableEq

/-- `validateIntakes`: scans the intakes in order; for each one it first
tests `intake.time < 0 || intake.time >= 24`, then
`intake.amount <= 0 || intake.amount > 1000`, and reports the first test
that fires (`some error` models `setError(...); return false`, `none`
models `setError(''); return true`). -/
def validateIntakes : List Intake → Option ValidationError
  | [] => none
  | intake :: rest =>
    if intake.time.ltB (JsNum.num 0) || intake.time.geB (JsNum.num 24) then
      some ValidationError.OutOfRangeTime
    else if intake.amount.leB (JsNum.num 0) || intake.amount.gtB (JsNum.num 1000) then
      some ValidationError.OutOfRangeAmount
    else validateIntakes rest

/-- `addIntake`: reads `intakes[intakes.length - 1]` (on an empty list this
is `undefined` and reading `.time` throws, modelled by `none`), computes
`newTime = (lastIntake.time + 2) % 24` (the source's subsequent
`if (newTime <= lastIntake.time) newTime = (lastIntake.time + 2) % 24;`
reassigns the identical expression and has no effect), and appends
`{ time: newTime, amount: 100 }`. -/
def addIntake (intakes : List Intake) : Option (List Intake) :=
  match intakes.getLast? with
  | none => none
  | some lastIntake =>
    let newTime := (lastIntake.time.addQ 2).remQ 24
    some (intakes ++ [{ time := newTime, amount := JsNum.num 100 }])

/-- Recursion underlying `removeIntake`: `intakes.filter((_, i) => i !== index)`
with `i` the running element index starting at `start`. -/
def removeFilter (index : ℤ) (start : ℕ) : List Intake → List Intake
  | [] => []
  | x :: xs =>
    if (start : ℤ) = index then removeFilter index (start + 1) xs
    else x :: removeFilter index (start + 1) xs

/-- `removeIntake`: `setIntakes(intakes.filter((_, i) => i !== index))`. -/
def removeIntake (intakes : List Intake) (index : ℤ) : List Intake :=
  removeFilter index 0 intakes

/-- The two editable fields of an intake row. -/
inductive IntakeField where
  | time : IntakeField
  | amount : IntakeField
deriving DecidableEq

/-- `updateIntake`: `newIntakes[index][field] = Number(value)`.  When
`index` is out of range, `newIntakes[index]` is `undefined` and the
property assignment throws, modelled by `none`; otherwise the entry at
`index` gets the named field replaced by the coerced value. -/
def updateIntake (intakes : List Intake) (index : ℕ) (field : IntakeField) (value : JsNum) :
    Option (List Intake) :=
  match intakes.get? index with
  | none => none
  | some intake =>
    let intake2 :=
      match field with
      | IntakeField.time => { intake with time := value }
      | IntakeField.amount => { intake with amount := value }
    some (intakes.set index intake2)

/-- An intake event whose fields are ordinary numbers (the only case in
which the decay engine's arithmetic is numerically meaningful). -/
structure QIntake where
  time : ℚ
  amount : ℚ
deriving DecidableEq

/-- View a numeric event as a store entry. -/
def QIntake.toIntake (i : QIntake) : Intake :=
  { time := JsNum.num i.time, amount := JsNum.num i.amount }

/-- The §3 data-model invariant: `0 ≤ time < 24` and `0 < amount ≤ 1000`. -/
def QIntake.valid (i : QIntake) : Prop :=
  0 ≤ i.time ∧ i.time < 24 ∧ 0 < i.amount ∧ i.amount ≤ 1000

instance (i : QIntake) : Decidable i.valid := by
  unfold QIntake.valid
  infer_instance

/-- Sort comparison of `[...intakes].sort((a, b) => a.time - b.time)`. -/
def timeLE (a b : QIntake) : Prop := a.time ≤ b.time

instance : DecidableRel timeLE := fun a b => by
  unfold timeLE
  infer_instance

instance : IsTotal QIntake timeLE := ⟨fun a b => le_total a.time b.time⟩

instance : IsTrans QIntake timeLE := ⟨fun _ _ _ h1 h2 => le_trans h1 h2⟩

/-- `[...intakes].sort((a, b) => a.time - b.time)`: a stable ascending sort
by time (stable sorts by the same key coincide as functions, so insertion
sort is a faithful model of the JavaScript engine's stable sort). -/
def sortedByTime (l : List QIntake) : List QIntake :=
  List.insertionSort timeLE l

/-- One output point `{ time, caffeine }` of the chart series. -/
structure Sample where
  time : ℚ
  caffeine : ℝ

/-- `Math.pow(0.5, x)` for a rational exponent, as a real number. -/
noncomputable def halfPow (x : ℚ) : ℝ :=
  (1 / 2 : ℝ) ^ (x : ℝ)

/-- `const intakeMinute = Math.round((intake.time - startTime + 24) % 24 * 60);`
(Mathlib's `round` is `⌊x + 1/2⌋`, which agrees with `Math.round`). -/
def intakeMinuteOf (startTime : ℚ) (intake : QIntake) : ℤ :=
  round (jsRemQ (intake.time - startTime + 24) 24 * 60)

/-- `const timeSinceIntake = (minute - intakeMinute + TOTAL_DURATION * 60) % (TOTAL_DURATION * 60) / 60;`
(the dividend is an integer and here nonnegative, so JavaScript `%`
agrees with `Int.emod`). -/
def tsiOf (startTime : ℚ) (minute : ℕ) (intake : QIntake) : ℚ :=
  ((((minute : ℤ) - intakeMinuteOf startTime intake + (TOTAL_DURATION * 60 : ℕ)) %
    ((TOTAL_DURATION * 60 : ℕ) : ℤ) : ℤ) : ℚ) / 60

/-- The contribution one intake adds to `data[minute].caffeine`:
`if (timeSinceIntake >= 0) { ... += intake.amount * Math.pow(0.5, timeSinceIntake / CAFFEINE_HALF_LIFE) }`. -/
noncomputable def contribAt (startTime : ℚ) (minute : ℕ) (intake : QIntake) : ℝ :=
  if 0 ≤ tsiOf startTime minute intake then
    (intake.amount : ℝ) * halfPow (tsiOf startTime minute intake / CAFFEINE_HALF_LIFE)
  else 0

/-- The final `data[minute].caffeine`: initialised to `0`, then each intake
of the sorted list accumulates its contribution (`forEach` + `+=`). -/
noncomputable def levelAt (intakes : List QIntake) (startTime : ℚ) (minute : ℕ) : ℝ :=
  (intakes.map (contribAt startTime minute)).sum

/-- The body of `chartData` after the validation gate:
`sortedIntakes[0].time` throws on an empty list (`none`); otherwise the
series is `Array.from({length: TOTAL_DURATION * 60}, (_, minute) => ({time: (startTime + minute / 60) % 24, caffeine: 0}))`
with the per-intake contributions accumulated into each sample. -/
noncomputable def chartDataUnchecked (intakes : List QIntake) : Option (List Sample) :=
  match sortedByTime intakes with
  | [] => none
  | first :: rest =>
    some ((List.range (TOTAL_DURATION * 60)).map fun (minute : ℕ) =>
      { time := jsRemQ (first.time + (minute : ℚ) / 60) 24
        caffeine := levelAt (first :: rest) first.time minute })

/-- `chartData`: `if (!validateIntakes()) return [];` then the series body. -/
noncomputable def chartData (intakes : List QIntake) : Option (List Sample) :=
  match validateIntakes (intakes.map QIntake.toIntake) with
  | some _ => some []
  | none => chartDataUnchecked intakes

/-- Caffeine level of sample `k` of `chartData intakes` (`0` when the
series is absent or `k` is out of range); a convenience projection for
stating properties of the series. -/
noncomputable def levelOf (intakes : List QIntake) (k : ℕ) : ℝ :=
  match chartData intakes with
  | some s => ((s.get? k).map Sample.caffeine).getD 0
  | none => 0

/-- The validator as §4.1 words it (the refinement comparand for the
implementation): scan the events in input order; an event whose `time` is
not in `[0, 24)` fails with `OutOfRangeTime`, else one whose `amount` is
not in `(0, 1000]` fails with `OutOfRangeAmount`; the first violation
found is returned. -/
def firstViolationSpec : List QIntake → Option ValidationError
  | [] => none
  | i :: rest =>
    if ¬(0 ≤ i.time ∧ i.time < 24) then some ValidationError.OutOfRangeTime
    else if ¬(0 < i.amount ∧ i.amount ≤ 1000) then some ValidationError.OutOfRangeAmount
    else firstViolationSpec rest

/-! ### Shared lemmas -/

lemma jsRemQ_of_nonneg (a b : ℚ) (ha : 0 ≤ a) (hb : 0 < b) :
    jsRemQ a b = a - b * (⌊a / b⌋ : ℚ) := by
  unfold jsRemQ ratTrunc
  rw [if_pos (div_nonneg ha hb.le)]

lemma validateIntakes_eq_spec (l : List QIntake) :
    validateIntakes (l.map QIntake.toIntake) = firstViolationSpec l := by
  induction l with
  | nil => rfl
  | cons i rest ih =>
    simp only [List.map_cons, validateIntakes, firstViolationSpec, QIntake.toIntake,
      JsNum.ltB, JsNum.geB, JsNum.leB, JsNum.gtB, Bool.or_eq_true, decide_eq_true_eq]
    have e1 : (i.time < 0 ∨ 24 ≤ i.time) ↔ ¬(0 ≤ i.time ∧ i.time < 24) := by
      rw [not_and_or, not_le, not_lt]
    have e2 : (i.amount ≤ 0 ∨ 1000 < i.amount) ↔ ¬(0 < i.amount ∧ i.amount ≤ 1000) := by
      rw [not_and_or, not_lt, not_le]
    exact if_congr e1 rfl (if_congr e2 rfl ih)

lemma firstViolationSpec_eq_none_of_valid (l : List QIntake) (h : ∀ i ∈ l, i.valid) :
    firstViolationSpec l = none := by
  induction l with
  | nil => rfl
  | cons i rest ih =>
    obtain ⟨h1, h2, h3, h4⟩ := h i (List.mem_cons_self i rest)
    simp only [firstViolationSpec]
    rw [if_neg (by push_neg; exact ⟨h1, h2⟩), if_neg (by push_neg; exact ⟨h3, h4⟩)]
    exact ih fun j hj => h j (List.mem_cons_of_mem i hj)

lemma firstViolationSpec_isSome_of_invalid (l : List QIntake) (h : ∃ i ∈ l, ¬i.valid) :
    (firstViolationSpec l).isSome := by
  induction l with
  | nil => simp at h
  | cons i rest ih =>
    simp only [firstViolationSpec]
    by_cases ht : 0 ≤ i.time ∧ i.time < 24
    · rw [if_neg (by push_neg; exact ht)]
      by_cases ha : 0 < i.amount ∧ i.amount ≤ 1000
      · rw [if_neg (by push_neg; exact ha)]
        obtain ⟨j, hj, hjv⟩ := h
        rcases List.mem_cons.mp hj with rfl | hjr
        · exact absurd ⟨ht.1, ht.2, ha.1, ha.2⟩ hjv
        · exact ih ⟨j, hjr, hjv⟩
      · rw [if_pos ha]
        rfl
    · rw [if_pos ht]
      rfl

lemma validateIntakes_none_of_valid (l : List QIntake) (h : ∀ i ∈ l, i.valid) :
    validateIntakes (l.map QIntake.toIntake) = none := by
  rw [validateIntakes_eq_spec]
  exact firstViolationSpec_eq_none_of_valid l h

lemma chartData_eq_unchecked (l : List QIntake) (h : ∀ i ∈ l, i.valid) :
    chartData l = chartDataUnchecked l := by
  unfold chartData
  rw [validateIntakes_none_of_valid l h]

lemma sortedByTime_perm (l : List QIntake) : List.Perm (sortedByTime l) l :=
  List.perm_insertionSort timeLE l

lemma sortedByTime_sorted (l : List QIntake) : List.Sorted timeLE (sortedByTime l) :=
  List.sorted_insertionSort timeLE l

lemma sortedByTime_ne_nil (l : List QIntake) (h : l ≠ []) : sortedByTime l ≠ [] := by
  intro hc
  exact h (List.Perm.eq_nil ((sortedByTime_perm l).symm.trans (hc ▸ List.Perm.refl _)))

lemma sortedByTime_single (i : QIntake) : sortedByTime [i] = [i] := rfl

lemma sortedByTime_pair (a b : QIntake) (h : a.time ≤ b.time) :
    sortedByTime [a, b] = [a, b] := by
  simp only [sortedByTime, List.insertionSort, List.orderedInsert]
  rw [if_pos (show timeLE a b from h)]

lemma tsiOf_nonneg (startTime : ℚ) (minute : ℕ) (intake : QIntake) :
    0 ≤ tsiOf startTime minute intake := by
  unfold tsiOf
  have : (0 : ℤ) ≤ ((minute : ℤ) - intakeMinuteOf startTime intake + (TOTAL_DURATION * 60 : ℕ)) %
      ((TOTAL_DURATION * 60 : ℕ) : ℤ) :=
    Int.emod_nonneg _ (by norm_num [TOTAL_DURATION])
  positivity

lemma contribAt_eq (startTime : ℚ) (minute : ℕ) (intake : QIntake) :
    contribAt startTime minute intake =
      (intake.amount : ℝ) * halfPow (tsiOf startTime minute intake / CAFFEINE_HALF_LIFE) := by
  unfold contribAt
  rw [if_pos (tsiOf_nonneg startTime minute intake)]

lemma halfPow_pos (x : ℚ) : 0 < halfPow x :=
  Real.rpow_pos_of_pos (by norm_num) _

lemma halfPow_zero : halfPow 0 = 1 := by
  unfold halfPow
  rw [Rat.cast_zero, Real.rpow_zero]

lemma halfPow_one : halfPow 1 = 1 / 2 := by
  unfold halfPow
  rw [Rat.cast_one, Real.rpow_one]

lemma halfPow_two : halfPow 2 = 1 / 4 := by
  unfold halfPow
  have : ((2 : ℚ) : ℝ) = ((2 : ℕ) : ℝ) := by norm_num
  rw [this, Real.rpow_natCast]
  norm_num

lemma intakeMinuteOf_self (t a : ℚ) : intakeMinuteOf t ⟨t, a⟩ = 0 := by
  unfold intakeMinuteOf
  have h24 : t - t + 24 = (24 : ℚ) := by ring
  have hrem : jsRemQ 24 24 = 0 := by norm_num [jsRemQ, ratTrunc]
  simp only [h24, hrem]
  norm_num

lemma tsiOf_of_zero_offset (startTime : ℚ) (minute : ℕ) (intake : QIntake)
    (hoff : intakeMinuteOf startTime intake = 0) (hm : minute < 1440) :
    tsiOf startTime minute intake = (minute : ℚ) / 60 := by
  unfold tsiOf
  rw [hoff]
  have h1 : ((minute : ℤ) - 0 + (TOTAL_DURATION * 60 : ℕ)) % ((TOTAL_DURATION * 60 : ℕ) : ℤ) =
      (minute : ℤ) := by
    norm_num [TOTAL_DURATION]
    omega
  rw [h1]
  norm_num

lemma chartDataUnchecked_of_sorted (l : List QIntake) (first : QIntake) (rest : List QIntake)
    (hs : sortedByTime l = first :: rest) :
    chartDataUnchecked l = some ((List.range (TOTAL_DURATION * 60)).map fun (minute : ℕ) =>
      { time := jsRemQ (first.time + (minute : ℚ) / 60) 24
        caffeine := levelAt (first :: rest) first.time minute }) := by
  unfold chartDataUnchecked
  rw [hs]

lemma series_get (f : ℕ → Sample) (k : ℕ) (hk : k < TOTAL_DURATION * 60) :
    (((List.range (TOTAL_DURATION * 60)).map f).get? k) = some (f k) := by
  rw [List.get?_map, List.get?_range hk]
  rfl

lemma total_minutes_eq : TOTAL_DURATION * 60 = 1440 := rfl

lemma levelOf_eq (l : List QIntake) (first : QIntake) (rest : List QIntake)
    (hv : ∀ i ∈ l, i.valid) (hs : sortedByTime l = first :: rest)
    (k : ℕ) (hk : k < 1440) :
    levelOf l k = levelAt (first :: rest) first.time k := by
  have h1 : chartData l = some ((List.range (TOTAL_DURATION * 60)).map fun (minute : ℕ) =>
      { time := jsRemQ (first.time + (minute : ℚ) / 60) 24
        caffeine := levelAt (first :: rest) first.time minute }) := by
    rw [chartData_eq_unchecked l hv]
    exact chartDataUnchecked_of_sorted l first rest hs
  simp only [levelOf, h1]
  rw [series_get _ k (by rw [total_minutes_eq]; exact hk)]
  rfl

lemma levelAt_single (i : QIntake) (startTime : ℚ) (minute : ℕ) :
    levelAt [i] startTime minute = contribAt startTime minute i := by
  simp [levelAt]

lemma levelAt_pair (a b : QIntake) (startTime : ℚ) (minute : ℕ) :
    levelAt [a, b] startTime minute =
      contribAt startTime minute a + contribAt startTime minute b := by
  simp [levelAt]

lemma levelOf_single (t a : ℚ) (hv : QIntake.valid ⟨t, a⟩) (k : ℕ) (hk : k < 1440) :
    levelOf [⟨t, a⟩] k = (a : ℝ) * halfPow ((k : ℚ) / 60 / CAFFEINE_HALF_LIFE) := by
  rw [levelOf_eq [⟨t, a⟩] ⟨t, a⟩ [] (by simpa using hv) (sortedByTime_single _) k hk]
  rw [levelAt_single, contribAt_eq]
  rw [tsiOf_of_zero_offset _ _ _ (intakeMinuteOf_self t a) hk]

lemma intakeMinuteOf_self_event (i : QIntake) : intakeMinuteOf i.time i = 0 :=
  intakeMinuteOf_self i.time i.amount

lemma removeFilter_out (index : ℤ) : ∀ (l : List Intake) (start : ℕ),
    (index < start ∨ (start + l.length : ℤ) ≤ index) → removeFilter index start l = l := by
  intro l
  induction l with
  | nil => intro start h; rfl
  | cons x xs ih =>
    intro start h
    unfold removeFilter
    rw [if_neg (by push_cast [List.length_cons] at h ⊢; omega)]
    rw [ih (start + 1) (by push_cast [List.length_cons] at h ⊢; omega)]

lemma removeFilter_in : ∀ (l : List Intake) (start k : ℕ), k < l.length →
    removeFilter ((start : ℤ) + k) start l = l.take k ++ l.drop (k + 1) := by
  intro l
  induction l with
  | nil => intro start k h; simp at h
  | cons x xs ih =>
    intro start k h
    cases k with
    | zero =>
      unfold removeFilter
      rw [if_pos (by push_cast; ring)]
      rw [removeFilter_out _ xs (start + 1) (by push_cast; omega)]
      simp
    | succ k2 =>
      unfold removeFilter
      rw [if_neg (by push_cast; omega)]
      have e : ((start : ℤ) + (k2 + 1 : ℕ)) = (((start + 1 : ℕ)) : ℤ) + k2 := by push_cast; ring
      rw [e, ih (start + 1) k2 (by simpa using Nat.lt_of_succ_lt_succ h)]
      simp

/-! ### Claim theorems -/

/-- C1: the claim asserts that a `NaN` time or amount (as produced by
`updateIntake` on a non-numeric rawValue) is rejected by the range checks.
In fact every JavaScript comparison involving `NaN` is false, so a `NaN`
field passes both range checks: `updateIntake` stores the `NaN` sentinel
and `validateIntakes` then accepts the list (returns no error), contrary
to the claim. -/
theorem validateIntakes_accepts_nan_sentinel :
    updateIntake [{ time := JsNum.num 6, amount := JsNum.num 100 }] 0 IntakeField.time
        (jsNumber none) = some [{ time := JsNum.nan, amount := JsNum.num 100 }] ∧
    validateIntakes [{ time := JsNum.nan, amount := JsNum.num 100 }] = none ∧
    validateIntakes [{ time := JsNum.num 6, amount := JsNum.nan }] = none := by
  refine ⟨by decide, by decide, by decide⟩

/-- C3: on the empty event list the validator succeeds (the loop checks
nothing), but the engine does not produce an all-zero series: it reads
`sortedIntakes[0].time` of an empty array, which throws (modelled by
`none`), contrary to the claim. -/
theorem empty_list_validates_but_engine_throws :
    validateIntakes [] = none ∧ chartData ([] : List QIntake) = none :=
  ⟨rfl, rfl⟩

/-- C4: boundary semantics of the validator — `time = 24`, `time = -0.01`,
`amount = 0` and `amount = 1000.01` are rejected with the corresponding
error, while `time = 0`, `time = 23.99`, `amount = 1` and `amount = 1000`
are accepted (time in `[0, 24)`, amount in `(0, 1000]`). -/
theorem validate_boundary_cases :
    validateIntakes [QIntake.toIntake ⟨24, 100⟩] = some ValidationError.OutOfRangeTime ∧
    validateIntakes [QIntake.toIntake ⟨-1/100, 100⟩] = some ValidationError.OutOfRangeTime ∧
    validateIntakes [QIntake.toIntake ⟨6, 0⟩] = some ValidationError.OutOfRangeAmount ∧
    validateIntakes [QIntake.toIntake ⟨6, 100001/100⟩] = some ValidationError.OutOfRangeAmount ∧
    validateIntakes [QIntake.toIntake ⟨0, 100⟩] = none ∧
    validateIntakes [QIntake.toIntake ⟨2399/100, 100⟩] = none ∧
    validateIntakes [QIntake.toIntake ⟨6, 1⟩] = none ∧
    validateIntakes [QIntake.toIntake ⟨6, 1000⟩] = none := by
  refine ⟨?_, ?_, ?_, ?_, ?_, ?_, ?_, ?_⟩ <;>
    norm_num [validateIntakes, QIntake.toIntake, JsNum.ltB, JsNum.geB, JsNum.leB, JsNum.gtB]

/-- C8: the validator agrees with the §4.1 scan (`firstViolationSpec`):
events are examined in input order, the time range is checked before the
amount range, and the first violation found is the one reported; in
particular an event with both fields out of range yields `OutOfRangeTime`,
and a list containing an invalid event is always rejected. -/
theorem validate_reports_first_violation :
    (∀ l : List QIntake, validateIntakes (l.map QIntake.toIntake) = firstViolationSpec l) ∧
    (∀ l : List QIntake, (∃ i ∈ l, ¬i.valid) →
      (validateIntakes (l.map QIntake.toIntake)).isSome) ∧
    (∀ t a : ℚ, ¬(0 ≤ t ∧ t < 24) → ¬(0 < a ∧ a ≤ 1000) →
      validateIntakes [QIntake.toIntake ⟨t, a⟩] = some ValidationError.OutOfRangeTime) := by
  refine ⟨validateIntakes_eq_spec, ?_, ?_⟩
  · intro l h
    rw [validateIntakes_eq_spec]
    exact firstViolationSpec_isSome_of_invalid l h
  · intro t a ht _
    have h := validateIntakes_eq_spec [⟨t, a⟩]
    simp only [List.map_cons, List.map_nil] at h
    rw [h]
    simp only [firstViolationSpec]
    rw [if_pos ht]

/-- Witness for C8 at concrete inputs. -/
theorem validate_reports_first_violation_witness :
    validateIntakes [QIntake.toIntake ⟨24, 0⟩] = some ValidationError.OutOfRangeTime ∧
    (validateIntakes (([⟨24, 0⟩] : List QIntake).map QIntake.toIntake)).isSome :=
  ⟨validate_reports_first_violation.2.2 24 0 (by decide) (by decide),
   validate_reports_first_violation.2.1 [⟨24, 0⟩] ⟨⟨24, 0⟩, by decide, by decide⟩⟩

/-- C9: on every non-empty list, `addIntake` keeps the input events as an
unchanged prefix and appends exactly one event whose amount is `100` and
whose time is the last event's time plus 2 hours wrapped by the JavaScript
`% 24`; for a numeric nonnegative last time this is the mathematical
`(q + 2) mod 24`. -/
theorem addIntake_appends_wrapped (l : List Intake) (h : l ≠ []) :
    addIntake l = some (l ++
      [Intake.mk (((l.getLast h).time.addQ 2).remQ 24) (JsNum.num 100)]) ∧
    (∀ res, addIntake l = some res →
      res.take l.length = l ∧ res.length = l.length + 1) ∧
    (∀ q : ℚ, (l.getLast h).time = JsNum.num q → 0 ≤ q →
      ((l.getLast h).time.addQ 2).remQ 24 =
        JsNum.num (q + 2 - 24 * (⌊(q + 2) / 24⌋ : ℚ))) := by
  have hl : l.getLast? = some (l.getLast h) := List.getLast?_eq_getLast l h
  refine ⟨?_, ?_, ?_⟩
  · unfold addIntake
    rw [hl]
  · intro res hres
    unfold addIntake at hres
    rw [hl] at hres
    have hres2 := Option.some.inj hres
    subst hres2
    exact ⟨List.take_left l _, by simp⟩
  · intro q hq hq0
    rw [hq]
    simp only [JsNum.addQ, JsNum.remQ]
    rw [jsRemQ_of_nonneg (q + 2) 24 (by linarith) (by norm_num)]

/-- Witness for C9 at a concrete single-event list. -/
theorem addIntake_appends_wrapped_witness :
    addIntake [{ time := JsNum.num 6, amount := JsNum.num 100 }] =
      some ([{ time := JsNum.num 6, amount := JsNum.num 100 }] ++
        [Intake.mk (((JsNum.num 6).addQ 2).remQ 24) (JsNum.num 100)]) ∧
    ((JsNum.num 6).addQ 2).remQ 24 =
      JsNum.num (6 + 2 - 24 * (⌊((6 : ℚ) + 2) / 24⌋ : ℚ)) :=
  ⟨(addIntake_appends_wrapped [{ time := JsNum.num 6, amount := JsNum.num 100 }] (by decide)).1,
   (addIntake_appends_wrapped [{ time := JsNum.num 6, amount := JsNum.num 100 }]
      (by decide)).2.2 6 rfl (by decide)⟩

/-- C10: `removeIntake` leaves the list unchanged for every index that is
not the position of an element (negative or `≥ length`), and for an
in-range index deletes exactly that element, preserving the relative
order of the remaining ones. -/
theorem removeIntake_index_semantics (l : List Intake) (index : ℤ) :
    ((index < 0 ∨ (l.length : ℤ) ≤ index) → removeIntake l index = l) ∧
    (0 ≤ index → index < (l.length : ℤ) →
      removeIntake l index = l.take index.toNat ++ l.drop (index.toNat + 1)) := by
  constructor
  · intro h
    unfold removeIntake
    apply removeFilter_out index l 0
    push_cast
    omega
  · intro h0 h1
    unfold removeIntake
    have hk : index.toNat < l.length := by omega
    have h2 := removeFilter_in l 0 index.toNat hk
    rwa [show ((0 : ℕ) : ℤ) + (index.toNat : ℤ) = index by omega] at h2

/-- Witness for C10 at a concrete two-event list. -/
theorem removeIntake_index_semantics_witness :
    removeIntake [{ time := JsNum.num 6, amount := JsNum.num 100 },
        { time := JsNum.num 8, amount := JsNum.num 100 }] (-1) =
      [{ time := JsNum.num 6, amount := JsNum.num 100 },
       { time := JsNum.num 8, amount := JsNum.num 100 }] ∧
    removeIntake [{ time := JsNum.num 6, amount := JsNum.num 100 },
        { time := JsNum.num 8, amount := JsNum.num 100 }] 1 =
      List.take (1 : ℤ).toNat [{ time := JsNum.num 6, amount := JsNum.num 100 },
        { time := JsNum.num 8, amount := JsNum.num 100 }] ++
      List.drop ((1 : ℤ).toNat + 1) [{ time := JsNum.num 6, amount := JsNum.num 100 },
        { time := JsNum.num 8, amount := JsNum.num 100 }] :=
  ⟨(removeIntake_index_semantics _ (-1)).1 (Or.inl (by decide)),
   (removeIntake_index_semantics _ 1).2 (by decide) (by decide)⟩

/-- C5: for a single valid intake of amount `a`, the series has level
exactly `a` at the intake's own sample (step 0), exactly `a / 2` five
hours later (step 300) and exactly `a / 4` ten hours later (step 600),
over exact real arithmetic. -/
theorem single_intake_decay_levels (t a : ℚ) (h0 : 0 ≤ t) (h1 : t < 24)
    (h2 : 0 < a) (h3 : a ≤ 1000) :
    levelOf [⟨t, a⟩] 0 = (a : ℝ) ∧
    levelOf [⟨t, a⟩] 300 = (a : ℝ) / 2 ∧
    levelOf [⟨t, a⟩] 600 = (a : ℝ) / 4 := by
  have hv : QIntake.valid ⟨t, a⟩ := ⟨h0, h1, h2, h3⟩
  refine ⟨?_, ?_, ?_⟩
  · rw [levelOf_single t a hv 0 (by norm_num)]
    have e : ((0 : ℕ) : ℚ) / 60 / CAFFEINE_HALF_LIFE = 0 := by norm_num
    rw [e, halfPow_zero, mul_one]
  · rw [levelOf_single t a hv 300 (by norm_num)]
    have e : ((300 : ℕ) : ℚ) / 60 / CAFFEINE_HALF_LIFE = 1 := by
      norm_num [CAFFEINE_HALF_LIFE]
    rw [e, halfPow_one]
    ring
  · rw [levelOf_single t a hv 600 (by norm_num)]
    have e : ((600 : ℕ) : ℚ) / 60 / CAFFEINE_HALF_LIFE = 2 := by
      norm_num [CAFFEINE_HALF_LIFE]
    rw [e, halfPow_two]
    ring

/-- Witness for C5 at the concrete event `{time: 6, amount: 100}`. -/
theorem single_intake_decay_levels_witness :
    (0 : ℚ) ≤ 6 ∧ (6 : ℚ) < 24 ∧ (0 : ℚ) < 100 ∧ (100 : ℚ) ≤ 1000 ∧
    (levelOf [⟨6, 100⟩] 0 = ((100 : ℚ) : ℝ) ∧
     levelOf [⟨6, 100⟩] 300 = ((100 : ℚ) : ℝ) / 2 ∧
     levelOf [⟨6, 100⟩] 600 = ((100 : ℚ) : ℝ) / 4) :=
  ⟨by decide, by decide, by decide, by decide,
   single_intake_decay_levels 6 100 (by decide) (by decide) (by decide) (by decide)⟩

/-- C7: at every step and for every intake with positive amount, the
wrapped forward distance `timeSinceIntake` is nonnegative, so the guard
`timeSinceIntake >= 0` always passes and the intake contributes its full
(strictly positive) decay term — no contribution is ever skipped. -/
theorem decay_guard_exhaustive (startTime : ℚ) (minute : ℕ) (i : QIntake)
    (ha : 0 < i.amount) :
    0 ≤ tsiOf startTime minute i ∧
    contribAt startTime minute i =
      (i.amount : ℝ) * halfPow (tsiOf startTime minute i / CAFFEINE_HALF_LIFE) ∧
    0 < contribAt startTime minute i := by
  refine ⟨tsiOf_nonneg _ _ _, contribAt_eq _ _ _, ?_⟩
  rw [contribAt_eq]
  exact mul_pos (by exact_mod_cast ha) (halfPow_pos _)

/-- Witness for C7 at a concrete step and intake. -/
theorem decay_guard_exhaustive_witness :
    (0 : ℚ) < (QIntake.mk 6 100).amount ∧
    (0 ≤ tsiOf 6 0 ⟨6, 100⟩ ∧
     contribAt 6 0 ⟨6, 100⟩ =
       ((QIntake.mk 6 100).amount : ℝ) *
         halfPow (tsiOf 6 0 ⟨6, 100⟩ / CAFFEINE_HALF_LIFE) ∧
     0 < contribAt 6 0 ⟨6, 100⟩) :=
  ⟨by decide, decay_guard_exhaustive 6 0 ⟨6, 100⟩ (by decide)⟩

/-- C6: on every non-empty valid list the engine returns exactly 1440
samples; the sample at step `k` has nominal time
`(start + k/60) mod 24` where `start` is the smallest event time, so
every sample time lies in the window `[start, start + 24)` taken
modulo 24. -/
theorem series_shape (l : List QIntake) (hne : l ≠ []) (hv : ∀ i ∈ l, i.valid) :
    ∃ (s : List Sample) (start : ℚ), chartData l = some s ∧
      start ∈ l.map QIntake.time ∧ (∀ i ∈ l, start ≤ i.time) ∧
      s.length = 1440 ∧
      (∀ k : ℕ, k < 1440 → (s.get? k).map Sample.time =
        some (start + (k : ℚ) / 60 - 24 * (⌊(start + (k : ℚ) / 60) / 24⌋ : ℚ))) ∧
      (∀ k : ℕ, k < 1440 → ∃ x : ℚ, 0 ≤ x ∧ x < 24 ∧ (s.get? k).map Sample.time =
        some (start + x - 24 * (⌊(start + x) / 24⌋ : ℚ))) := by
  obtain ⟨first, rest, hs⟩ : ∃ f r, sortedByTime l = f :: r := by
    cases hsort : sortedByTime l with
    | nil => exact absurd hsort (sortedByTime_ne_nil l hne)
    | cons f r => exact ⟨f, r, rfl⟩
  have hmem : first ∈ l := by
    have h1 : first ∈ sortedByTime l := by
      rw [hs]
      exact List.mem_cons_self first rest
    exact (sortedByTime_perm l).mem_iff.mp h1
  have h0start : 0 ≤ first.time := (hv first hmem).1
  have hmin : ∀ i ∈ l, first.time ≤ i.time := by
    intro i hi
    have hi2 : i ∈ first :: rest := by
      rw [← hs]
      exact (sortedByTime_perm l).mem_iff.mpr hi
    rcases List.mem_cons.mp hi2 with rfl | hr
    · exact le_refl _
    · have hsorted := sortedByTime_sorted l
      rw [hs] at hsorted
      exact (List.sorted_cons.mp hsorted).1 i hr
  have hchart : chartData l =
      some ((List.range (TOTAL_DURATION * 60)).map fun (minute : ℕ) =>
        { time := jsRemQ (first.time + (minute : ℚ) / 60) 24
          caffeine := levelAt (first :: rest) first.time minute }) := by
    rw [chartData_eq_unchecked l hv]
    exact chartDataUnchecked_of_sorted l first rest hs
  refine ⟨_, first.time, hchart, List.mem_map.mpr ⟨first, hmem, rfl⟩, hmin, ?_, ?_, ?_⟩
  · rw [List.length_map, List.length_range, total_minutes_eq]
  · intro k hk
    rw [series_get _ k (by rw [total_minutes_eq]; exact hk)]
    simp only [Option.map_some']
    rw [jsRemQ_of_nonneg _ 24 (add_nonneg h0start (by positivity)) (by norm_num)]
  · intro k hk
    refine ⟨(k : ℚ) / 60, by positivity, ?_, ?_⟩
    · rw [div_lt_iff (by norm_num : (0 : ℚ) < 60)]
      have hq : (k : ℚ) < 1440 := by exact_mod_cast hk
      linarith
    · rw [series_get _ k (by rw [total_minutes_eq]; exact hk)]
      simp only [Option.map_some']
      rw [jsRemQ_of_nonneg _ 24 (add_nonneg h0start (by positivity)) (by norm_num)]

/-- Witness for C6 at the concrete one-event list `[{time: 6, amount: 100}]`. -/
theorem series_shape_witness :
    ([⟨6, 100⟩] : List QIntake) ≠ [] ∧
    (∀ i ∈ ([⟨6, 100⟩] : List QIntake), i.valid) ∧
    (∃ (s : List Sample) (start : ℚ), chartData [⟨6, 100⟩] = some s ∧
      start ∈ ([⟨6, 100⟩] : List QIntake).map QIntake.time ∧
      (∀ i ∈ ([⟨6, 100⟩] : List QIntake), start ≤ i.time) ∧
      s.length = 1440 ∧
      (∀ k : ℕ, k < 1440 → (s.get? k).map Sample.time =
        some (start + (k : ℚ) / 60 - 24 * (⌊(start + (k : ℚ) / 60) / 24⌋ : ℚ))) ∧
      (∀ k : ℕ, k < 1440 → ∃ x : ℚ, 0 ≤ x ∧ x < 24 ∧ (s.get? k).map Sample.time =
        some (start + x - 24 * (⌊(start + x) / 24⌋ : ℚ)))) :=
  ⟨by decide, by decide, series_shape [⟨6, 100⟩] (by decide) (by decide)⟩

/-- C2 counterexample: index-aligned superposition fails.  For the valid
events `{time: 0, amount: 100}` and `{time: 5, amount: 100}`, the combined
series at step 300 has level `150` (the step-300 sample sits at the second
intake's instant), while the two single-intake series — each anchored at
its own intake — both have level `50` at their step 300, summing to `100`. -/
theorem superposition_same_index_fails :
    levelOf [⟨0, 100⟩, ⟨5, 100⟩] 300 ≠ levelOf [⟨0, 100⟩] 300 + levelOf [⟨5, 100⟩] 300 := by
  have hv1 : QIntake.valid ⟨0, 100⟩ := by decide
  have hv2 : QIntake.valid ⟨5, 100⟩ := by decide
  have hvl : ∀ i ∈ ([⟨0, 100⟩, ⟨5, 100⟩] : List QIntake), i.valid := by decide
  have hone : levelOf [(⟨0, 100⟩ : QIntake)] 300 = 50 := by
    rw [levelOf_single 0 100 hv1 300 (by norm_num)]
    have e : ((300 : ℕ) : ℚ) / 60 / CAFFEINE_HALF_LIFE = 1 := by
      norm_num [CAFFEINE_HALF_LIFE]
    rw [e, halfPow_one]
    norm_num
  have htwo : levelOf [(⟨5, 100⟩ : QIntake)] 300 = 50 := by
    rw [levelOf_single 5 100 hv2 300 (by norm_num)]
    have e : ((300 : ℕ) : ℚ) / 60 / CAFFEINE_HALF_LIFE = 1 := by
      norm_num [CAFFEINE_HALF_LIFE]
    rw [e, halfPow_one]
    norm_num
  have hpair : levelOf [⟨0, 100⟩, ⟨5, 100⟩] 300 = 150 := by
    rw [levelOf_eq [⟨0, 100⟩, ⟨5, 100⟩] ⟨0, 100⟩ [⟨5, 100⟩] hvl
      (sortedByTime_pair _ _ (by decide)) 300 (by norm_num)]
    rw [levelAt_pair]
    have c1 : contribAt (0 : ℚ) 300 ⟨0, 100⟩ = 50 := by
      rw [contribAt_eq]
      have e : tsiOf 0 300 ⟨0, 100⟩ = 5 := by
        norm_num [tsiOf, intakeMinuteOf, jsRemQ, ratTrunc, round_eq, TOTAL_DURATION]
      rw [e]
      have e2 : (5 : ℚ) / CAFFEINE_HALF_LIFE = 1 := by norm_num [CAFFEINE_HALF_LIFE]
      rw [e2, halfPow_one]
      norm_num
    have c2 : contribAt (0 : ℚ) 300 ⟨5, 100⟩ = 100 := by
      rw [contribAt_eq]
      have e : tsiOf 0 300 ⟨5, 100⟩ = 0 := by
        norm_num [tsiOf, intakeMinuteOf, jsRemQ, ratTrunc, round_eq, TOTAL_DURATION]
      rw [e]
      have e2 : (0 : ℚ) / CAFFEINE_HALF_LIFE = 0 := by norm_num
      rw [e2, halfPow_zero]
      norm_num
    rw [c1, c2]
    norm_num
  rw [hpair, hone, htwo]
  norm_num

/-- C2 amended: superposition holds pointwise by nominal time.  For two
valid events with `e1.time < e2.time`, the combined series at step `k`
equals the `e1` series at step `k` plus the `e2` series at the step that
carries the same nominal time, namely `(k - d) mod 1440` where `d` is
`e2`'s rounded minute offset within the combined window. -/
theorem superposition_time_aligned (e1 e2 : QIntake) (h12 : e1.time < e2.time)
    (hv1 : e1.valid) (hv2 : e2.valid) (k : ℕ) (hk : k < 1440) :
    levelOf [e1, e2] k =
      levelOf [e1] k +
      levelOf [e2] (((k : ℤ) - intakeMinuteOf e1.time e2 + 1440) % 1440).toNat := by
  have hvl : ∀ i ∈ [e1, e2], i.valid := by
    intro i hi
    rcases List.mem_cons.mp hi with rfl | hi2
    · exact hv1
    · rcases List.mem_cons.mp hi2 with rfl | hi3
      · exact hv2
      · simp at hi3
  have hj0 : (0 : ℤ) ≤ ((k : ℤ) - intakeMinuteOf e1.time e2 + 1440) % 1440 :=
    Int.emod_nonneg _ (by norm_num)
  have hjlt : ((k : ℤ) - intakeMinuteOf e1.time e2 + 1440) % 1440 < 1440 :=
    Int.emod_lt_of_pos _ (by norm_num)
  set j := (((k : ℤ) - intakeMinuteOf e1.time e2 + 1440) % 1440).toNat with hjdef
  have hjz : (j : ℤ) = ((k : ℤ) - intakeMinuteOf e1.time e2 + 1440) % 1440 := by
    rw [hjdef]
    exact Int.toNat_of_nonneg hj0
  have hjlt2 : j < 1440 := by omega
  have hcast : ((j : ℕ) : ℚ) =
      ((((k : ℤ) - intakeMinuteOf e1.time e2 + 1440) % 1440 : ℤ) : ℚ) := by
    exact_mod_cast congrArg (fun z : ℤ => (z : ℚ)) hjz
  rw [levelOf_eq [e1, e2] e1 [e2] hvl (sortedByTime_pair e1 e2 h12.le) k hk, levelAt_pair]
  have c1 : contribAt e1.time k e1 =
      (e1.amount : ℝ) * halfPow ((k : ℚ) / 60 / CAFFEINE_HALF_LIFE) := by
    rw [contribAt_eq, tsiOf_of_zero_offset e1.time k e1 (intakeMinuteOf_self_event e1) hk]
  have c2 : contribAt e1.time k e2 =
      (e2.amount : ℝ) * halfPow (((((k : ℤ) - intakeMinuteOf e1.time e2 + 1440) % 1440 : ℤ) : ℚ)
        / 60 / CAFFEINE_HALF_LIFE) := by
    rw [contribAt_eq]
    have e : tsiOf e1.time k e2 =
        ((((k : ℤ) - intakeMinuteOf e1.time e2 + 1440) % 1440 : ℤ) : ℚ) / 60 := by
      unfold tsiOf
      norm_num [TOTAL_DURATION]
    rw [e]
  have s1 : levelOf [e1] k = (e1.amount : ℝ) * halfPow ((k : ℚ) / 60 / CAFFEINE_HALF_LIFE) :=
    levelOf_single e1.time e1.amount hv1 k hk
  have s2 : levelOf [e2] j = (e2.amount : ℝ) * halfPow ((j : ℚ) / 60 / CAFFEINE_HALF_LIFE) :=
    levelOf_single e2.time e2.amount hv2 j hjlt2
  rw [c1, c2, s1, s2, hcast]

/-- Witness for the amended C2 at the events of the counterexample. -/
theorem superposition_time_aligned_witness :
    (QIntake.mk 0 100).time < (QIntake.mk 5 100).time ∧
    levelOf [⟨0, 100⟩, ⟨5, 100⟩] 300 =
      levelOf [⟨0, 100⟩] 300 +
      levelOf [⟨5, 100⟩]
        ((((300 : ℕ) : ℤ) - intakeMinuteOf (QIntake.mk 0 100).time ⟨5, 100⟩ + 1440) % 1440).toNat :=
  ⟨by decide,
   superposition_time_aligned ⟨0, 100⟩ ⟨5, 100⟩ (by decide) (by decide) (by decide)
     300 (by decide)⟩
